import Mathlib

/-!
Shallow embedding of the messenger storage layer
(`app/models/cassandra_models.py` together with the two controllers in
`app/controllers/`).

Modelling choices:
* `uuid.uuid4()` is modelled by a fresh-identifier counter `nextId` carried in
  the database state; `datetime.utcnow()` is modelled by an explicit `now : Nat`
  argument passed to each writing operation (timestamps are `Nat`).
* The Cassandra client and the table schema are not part of the repository's
  source tree; the behaviour of `execute` on the two tables is modelled from
  the spec (see the doc comments of `selectMessages` and
  `selectConversationsContaining`).
* Python's in-place stable `list.sort` / `sorted` are modelled by
  `List.insertionSort`, and Python's slice `l[a : b]` (negative indices
  included) by `pySlice`.
-/

namespace Messenger

/-- A row of the `messages_by_conversation` table. -/
structure MessageRow where
  conversation_id : Nat
  sent_at : Nat
  message_id : Nat
  sender_id : Int
  receiver_id : Int
  content : String
  deriving Repr, DecidableEq

/-- A row of the `conversations` table.  The `INSERT` issued by
`create_or_get_conversation` sets `last_message_at` to the creation time and
leaves `last_message_content` unset (null). -/
structure ConversationRow where
  conversation_id : Nat
  list_of_users : List Int
  created_at : Nat
  last_message_at : Option Nat
  last_message_content : Option String
  deriving Repr, DecidableEq

/-- The whole storage state: both tables plus the fresh-uuid supply. -/
structure DB where
  conversations : List ConversationRow
  messages : List MessageRow
  nextId : Nat
  deriving Repr, DecidableEq

def emptyDB : DB := ⟨[], [], 0⟩

/-- Normalisation of one Python slice index for a list of length `len`:
negative indices count from the end (clamped at 0), nonnegative indices are
clamped at `len`. -/
def normIdx (len : Nat) (i : Int) : Nat :=
  if i < 0 then ((len : Int) + i).toNat else min i.toNat len

/-- Python's `l[a : b]` (step 1). -/
def pySlice (l : List α) (a b : Int) : List α :=
  (l.take (normIdx l.length b)).drop (normIdx l.length a)

/-- Descending order on message rows by `sent_at` (the clustering key). -/
def msgDesc : MessageRow → MessageRow → Prop := fun a b => b.sent_at ≤ a.sent_at

instance : DecidableRel msgDesc := fun a b => Nat.decLe b.sent_at a.sent_at

instance : IsTotal MessageRow msgDesc := ⟨fun a b => Nat.le_total b.sent_at a.sent_at⟩

instance : IsTrans MessageRow msgDesc := ⟨fun _ _ _ hab hbc => le_trans hbc hab⟩

/-- Descending order on conversation rows by `last_message_at`, a null field
sorting as the minimal timestamp: this is the key
`x.get("last_message_at") or datetime.min` of `get_user_conversations`. -/
def convDesc : ConversationRow → ConversationRow → Prop :=
  fun a b => b.last_message_at.getD 0 ≤ a.last_message_at.getD 0

instance : DecidableRel convDesc :=
  fun a b => Nat.decLe (b.last_message_at.getD 0) (a.last_message_at.getD 0)

instance : IsTotal ConversationRow convDesc :=
  ⟨fun a b => Nat.le_total (b.last_message_at.getD 0) (a.last_message_at.getD 0)⟩

instance : IsTrans ConversationRow convDesc := ⟨fun _ _ _ hab hbc => le_trans hbc hab⟩

/-- Ascending order on user identifiers, for Python's `sorted(users)`. -/
def userAsc : Int → Int → Prop := fun a b => a ≤ b

instance : DecidableRel userAsc := fun a b => Int.decLe a b

instance : IsTotal Int userAsc := ⟨fun a b => Int.le_total a b⟩

instance : IsTrans Int userAsc := ⟨fun _ _ _ hab hbc => le_trans hab hbc⟩

instance : IsAntisymm Int userAsc := ⟨fun _ _ hab hba => le_antisymm hab hba⟩

/-- Modelled from the spec: the Cassandra client (`app/db/cassandra_client.py`)
and the table schema are not in the source tree.  Per the spec, messages are
clustered by sent time and `listByConversation` reads them back "ordered by
`created_at` descending", so the `SELECT ... WHERE conversation_id = %s`
issued by `get_conversation_messages` returns the matching rows sorted by
`sent_at` descending (ties in unspecified, here stable, order). -/
def selectMessages (db : DB) (cid : Nat) : List MessageRow :=
  List.insertionSort msgDesc (db.messages.filter (fun m => m.conversation_id == cid))

/-- Modelled from the spec, as `selectMessages`: the variant with the extra
clustering-column restriction `sent_at < %s` (strictly exclusive). -/
def selectMessagesBefore (db : DB) (cid : Nat) (before : Nat) : List MessageRow :=
  List.insertionSort msgDesc
    (db.messages.filter (fun m => m.conversation_id == cid && decide (m.sent_at < before)))

/-- Modelled from the spec: `SELECT * FROM conversations WHERE list_of_users
CONTAINS %s ALLOW FILTERING` returns every row whose participant list contains
the given user, in a fixed table-wide row order (the same for every query). -/
def selectConversationsContaining (db : DB) (u : Int) : List ConversationRow :=
  db.conversations.filter (fun c => c.list_of_users.contains u)

/-- Modelled from the spec: exact-key lookup
`SELECT * FROM conversations WHERE conversation_id = %s`. -/
def selectConversationById (db : DB) (cid : Nat) : List ConversationRow :=
  db.conversations.filter (fun c => c.conversation_id == cid)

/-- The dict returned by `MessageModel.create_message`, also the shape of the
`MessageResponse` items built by `get_conversation_messages` and of the plain
dicts built by `get_messages_before_timestamp`. -/
structure MessageResponse where
  id : Nat
  created_at : Nat
  sender_id : Int
  receiver_id : Int
  content : String
  conversation_id : Nat
  deriving Repr, DecidableEq

/-- The paginated envelope `{"total": ..., "page": ..., "limit": ..., "data": ...}`. -/
structure Paginated (α : Type) where
  total : Nat
  page : Int
  limit : Int
  data : List α
  deriving Repr, DecidableEq

/-- `MessageModel.create_message`: insert the message row, then `UPDATE
conversations SET last_message_content = %s, last_message_at = %s WHERE
conversation_id = %s` (an update of every row with that key), and return the
populated message dict. -/
def create_message (cid : Nat) (sender_id receiver_id : Int) (content : String)
    (now : Nat) (db : DB) : MessageResponse × DB :=
  let message_id := db.nextId
  let row : MessageRow :=
    { conversation_id := cid, sent_at := now, message_id := message_id,
      sender_id := sender_id, receiver_id := receiver_id, content := content }
  let convs := db.conversations.map (fun c =>
    if c.conversation_id == cid then
      { c with last_message_content := some content, last_message_at := some now }
    else c)
  ({ id := message_id, created_at := now, sender_id := sender_id,
     receiver_id := receiver_id, content := content, conversation_id := cid },
   { conversations := convs, messages := db.messages ++ [row], nextId := db.nextId + 1 })

/-- `MessageModel.get_conversation_messages`: fetch all rows of the
conversation, then slice `results[start : start + limit]` with
`start = (page - 1) * limit`. -/
def get_conversation_messages (cid : Nat) (page limit : Int) (db : DB) :
    Paginated MessageResponse :=
  let results := selectMessages db cid
  let total := results.length
  let start := (page - 1) * limit
  let paginated_results := pySlice results start (start + limit)
  let data := paginated_results.map (fun m =>
    { id := m.message_id, created_at := m.sent_at, sender_id := m.sender_id,
      receiver_id := m.receiver_id, content := m.content,
      conversation_id := m.conversation_id : MessageResponse })
  { total := total, page := page, limit := limit, data := data }

/-- `MessageModel.get_messages_before_timestamp`: as above but over the rows
with `sent_at < before_timestamp`. -/
def get_messages_before_timestamp (cid : Nat) (before_timestamp : Nat)
    (page limit : Int) (db : DB) : Paginated MessageResponse :=
  let results := selectMessagesBefore db cid before_timestamp
  let total := results.length
  let start := (page - 1) * limit
  let paginated_results := pySlice results start (start + limit)
  let data := paginated_results.map (fun m =>
    { id := m.message_id, created_at := m.sent_at, sender_id := m.sender_id,
      receiver_id := m.receiver_id, content := m.content,
      conversation_id := m.conversation_id : MessageResponse })
  { total := total, page := page, limit := limit, data := data }

/-- The conversation dict built by `get_user_conversations` and
`get_conversation`: id, the two (sorted) participants, and the last-message
summary. -/
structure ConversationOut where
  id : Nat
  user1_id : Option Int
  user2_id : Option Int
  last_message_at : Option Nat
  last_message_content : Option String
  deriving Repr, DecidableEq

/-- The participant extraction both read operations perform on a row:
`sorted(users)[:2]` when there are at least two users, the single user twice
when there is one, `None` twice when there are none. -/
def pairOfUsers (users : List Int) : Option Int × Option Int :=
  match List.insertionSort userAsc users with
  | u1 :: u2 :: _ => (some u1, some u2)
  | [u] => (some u, some u)
  | [] => (none, none)

/-- The output dict built (identically) by `get_user_conversations` and
`get_conversation` from a conversation row. -/
def convOut (c : ConversationRow) : ConversationOut :=
  { id := c.conversation_id, user1_id := (pairOfUsers c.list_of_users).1,
    user2_id := (pairOfUsers c.list_of_users).2,
    last_message_at := c.last_message_at,
    last_message_content := c.last_message_content }

/-- `ConversationModel.get_user_conversations`: filter by `CONTAINS user_id`,
sort in place by `last_message_at` descending (nulls as `datetime.min`),
slice, and shape each row. -/
def get_user_conversations (user_id : Int) (page limit : Int) (db : DB) :
    Paginated ConversationOut :=
  let results := List.insertionSort convDesc (selectConversationsContaining db user_id)
  let total := results.length
  let start := (page - 1) * limit
  let data := pySlice results start (start + limit)
  { total := total, page := page, limit := limit, data := data.map convOut }

/-- `ConversationModel.get_conversation`: exact lookup; raises
`Exception("Conversation not found")` when no row matches, otherwise shapes
the first matching row. -/
def get_conversation (cid : Nat) (db : DB) : Except String ConversationOut :=
  match selectConversationById db cid with
  | [] => .error "Conversation not found"
  | conv :: _ => .ok (convOut conv)

/-- The dict returned by the create branch of `create_or_get_conversation`. -/
structure CreatedConv where
  id : Nat
  user1_id : Int
  user2_id : Int
  created_at : Nat
  last_message_at : Option Nat
  last_message_content : Option String
  list_of_users : List Int
  deriving Repr, DecidableEq

/-- `create_or_get_conversation` returns either the raw stored row (found
branch: `return conv`) or the freshly built response dict (create branch). -/
inductive ConvResult where
  | found (row : ConversationRow)
  | created (resp : CreatedConv)
  deriving Repr, DecidableEq

/-- `ConversationModel.create_or_get_conversation`: scan the rows containing
`user1_id` for one also containing `user2_id`; on a miss insert a new row
`(conversation_id, [user1_id, user2_id], created_at, last_message_at)` and
return the normalised response dict. -/
def create_or_get_conversation (user1_id user2_id : Int) (now : Nat) (db : DB) :
    ConvResult × DB :=
  let results := selectConversationsContaining db user1_id
  match results.find? (fun c => c.list_of_users.contains user2_id) with
  | some conv => (.found conv, db)
  | none =>
    let conversation_id := db.nextId
    let row : ConversationRow :=
      { conversation_id := conversation_id, list_of_users := [user1_id, user2_id],
        created_at := now, last_message_at := some now, last_message_content := none }
    (.created
      { id := conversation_id, user1_id := min user1_id user2_id,
        user2_id := max user1_id user2_id, created_at := now,
        last_message_at := some now, last_message_content := none,
        list_of_users := [user1_id, user2_id] },
     { db with conversations := db.conversations ++ [row], nextId := db.nextId + 1 })

/-- The conversation id the message controller extracts from either branch:
`conversation.get("id") or conversation.get("conversation_id")`. -/
def ConvResult.convId : ConvResult → Nat
  | .found row => row.conversation_id
  | .created resp => resp.id

/-- The participant list carried by either branch's return value. -/
def ConvResult.users : ConvResult → List Int
  | .found row => row.list_of_users
  | .created resp => resp.list_of_users

/-- Every stored conversation has exactly two participants (all rows are
created by `create_or_get_conversation`, which always inserts a two-element
`list_of_users`). -/
def WFConversations (db : DB) : Prop :=
  ∀ c ∈ db.conversations, c.list_of_users.length = 2

/-- A concrete state: conversation `0` between users `1` and `2` holding two
messages (`"hello"` at time 20, `"hi"` at time 10), reached from the empty
state by the system's own operations. -/
def dbTwoMsgs : DB :=
  (create_message 0 1 2 "hi" 10
    (create_message 0 2 1 "hello" 20
      (create_or_get_conversation 1 2 5 emptyDB).2).2).2

/- ------------------------------------------------------------------ -/
/- Helper lemmas -/
/- ------------------------------------------------------------------ -/

theorem pySlice_sublist (l : List α) (a b : Int) : List.Sublist (pySlice l a b) l :=
  List.Sublist.trans (List.drop_sublist _ _) (List.take_sublist _ _)

theorem normIdx_of_nonneg (len : Nat) (i : Int) (h : 0 ≤ i) :
    normIdx len i = min i.toNat len := by
  unfold normIdx
  rw [if_neg (by omega)]

theorem length_pySlice_le (l : List α) (a k : Int) (ha : 0 ≤ a) (hk : 0 ≤ k) :
    (pySlice l a (a + k)).length ≤ k.toNat := by
  unfold pySlice
  rw [normIdx_of_nonneg _ _ ha, normIdx_of_nonneg _ _ (by omega)]
  simp only [List.length_drop, List.length_take]
  omega

theorem pySlice_eq_nil_of_le (l : List α) (a b : Int) (ha : (l.length : Int) ≤ a) :
    pySlice l a b = [] := by
  unfold pySlice
  rw [normIdx_of_nonneg _ _ (by omega)]
  apply List.drop_eq_nil_of_le
  simp only [List.length_take]
  omega

theorem pySlice_to_zero (l : List α) (a : Int) : pySlice l a 0 = [] := by
  unfold pySlice
  rw [normIdx_of_nonneg l.length 0 (by omega)]
  simp

theorem insertionSort_length (r : α → α → Prop) [DecidableRel r] (l : List α) :
    (List.insertionSort r l).length = l.length :=
  (List.perm_insertionSort r l).length_eq

theorem find?_filter_and (l : List α) (p q : α → Bool) :
    (l.filter p).find? q = l.find? (fun a => p a && q a) := by
  induction l with
  | nil => rfl
  | cons x xs ih =>
    simp only [List.filter_cons]
    by_cases hp : p x = true
    · rw [if_pos hp]
      by_cases hq : q x = true
      · simp [List.find?_cons, hp, hq]
      · simp [List.find?_cons, hp, hq, ih]
    · rw [if_neg hp]
      have hx : (p x && q x) = false := by
        cases hpx : p x
        · simp
        · exact absurd hpx hp
      simp [List.find?_cons, hx, ih]

/-- The first conversation row containing both users, in table order. -/
def firstBoth (db : DB) (u1 u2 : Int) : Option ConversationRow :=
  db.conversations.find?
    (fun c => c.list_of_users.contains u1 && c.list_of_users.contains u2)

theorem firstBoth_symm (db : DB) (u1 u2 : Int) :
    firstBoth db u1 u2 = firstBoth db u2 u1 := by
  unfold firstBoth
  congr 1
  funext c
  exact Bool.and_comm _ _

theorem create_or_get_of_firstBoth_some (u1 u2 : Int) (now : Nat) (db : DB)
    (conv : ConversationRow) (h : firstBoth db u1 u2 = some conv) :
    create_or_get_conversation u1 u2 now db = (.found conv, db) := by
  unfold create_or_get_conversation selectConversationsContaining
  simp only [find?_filter_and]
  rw [firstBoth] at h
  rw [h]

theorem create_or_get_of_firstBoth_none (u1 u2 : Int) (now : Nat) (db : DB)
    (h : firstBoth db u1 u2 = none) :
    create_or_get_conversation u1 u2 now db =
      (.created
        { id := db.nextId, user1_id := min u1 u2, user2_id := max u1 u2,
          created_at := now, last_message_at := some now,
          last_message_content := none, list_of_users := [u1, u2] },
       { db with
          conversations := db.conversations ++
            [{ conversation_id := db.nextId, list_of_users := [u1, u2],
               created_at := now, last_message_at := some now,
               last_message_content := none }],
          nextId := db.nextId + 1 }) := by
  unfold create_or_get_conversation selectConversationsContaining
  simp only [find?_filter_and]
  rw [firstBoth] at h
  rw [h]

theorem get_conversation_messages_total (cid : Nat) (page limit : Int) (db : DB) :
    (get_conversation_messages cid page limit db).total = (selectMessages db cid).length := rfl

theorem get_conversation_messages_data (cid : Nat) (page limit : Int) (db : DB) :
    (get_conversation_messages cid page limit db).data
      = (pySlice (selectMessages db cid) ((page - 1) * limit) ((page - 1) * limit + limit)).map
          (fun m => { id := m.message_id, created_at := m.sent_at, sender_id := m.sender_id,
                      receiver_id := m.receiver_id, content := m.content,
                      conversation_id := m.conversation_id : MessageResponse }) := rfl

theorem get_messages_before_timestamp_total (cid T : Nat) (page limit : Int) (db : DB) :
    (get_messages_before_timestamp cid T page limit db).total
      = (selectMessagesBefore db cid T).length := rfl

theorem get_messages_before_timestamp_data (cid T : Nat) (page limit : Int) (db : DB) :
    (get_messages_before_timestamp cid T page limit db).data
      = (pySlice (selectMessagesBefore db cid T)
            ((page - 1) * limit) ((page - 1) * limit + limit)).map
          (fun m => { id := m.message_id, created_at := m.sent_at, sender_id := m.sender_id,
                      receiver_id := m.receiver_id, content := m.content,
                      conversation_id := m.conversation_id : MessageResponse }) := rfl

theorem get_user_conversations_total (u : Int) (page limit : Int) (db : DB) :
    (get_user_conversations u page limit db).total
      = (List.insertionSort convDesc (selectConversationsContaining db u)).length := rfl

theorem get_user_conversations_data (u : Int) (page limit : Int) (db : DB) :
    (get_user_conversations u page limit db).data
      = (pySlice (List.insertionSort convDesc (selectConversationsContaining db u))
            ((page - 1) * limit) ((page - 1) * limit + limit)).map convOut := rfl

theorem selectMessages_length (db : DB) (cid : Nat) :
    (selectMessages db cid).length
      = (db.messages.filter (fun m => m.conversation_id == cid)).length :=
  insertionSort_length _ _

theorem selectMessagesBefore_length (db : DB) (cid T : Nat) :
    (selectMessagesBefore db cid T).length
      = (db.messages.filter
          (fun m => m.conversation_id == cid && decide (m.sent_at < T))).length :=
  insertionSort_length _ _

theorem sortedUserConvs_length (db : DB) (u : Int) :
    (List.insertionSort convDesc (selectConversationsContaining db u)).length
      = (db.conversations.filter (fun c => c.list_of_users.contains u)).length :=
  insertionSort_length _ _

/- ------------------------------------------------------------------ -/
/- Claim theorems -/
/- ------------------------------------------------------------------ -/

/-- C1: for every conversation, every positive page and limit, and every
storage state (hence after any sequence of `create_message` calls into that
conversation), `get_conversation_messages` returns `data` sorted by
`created_at` in non-increasing order, of length at most `limit`. -/
theorem listByConversation_sorted_and_bounded (db : DB) (cid : Nat) (page limit : Int)
    (hp : 1 ≤ page) (hl : 1 ≤ limit) :
    (get_conversation_messages cid page limit db).data.Pairwise
      (fun a b => b.created_at ≤ a.created_at)
  ∧ ((get_conversation_messages cid page limit db).data.length : Int) ≤ limit := by
  rw [get_conversation_messages_data]
  have hsorted : (selectMessages db cid).Pairwise msgDesc :=
    List.sorted_insertionSort msgDesc _
  have hslice := List.Pairwise.sublist
    (pySlice_sublist (selectMessages db cid) ((page - 1) * limit) ((page - 1) * limit + limit))
    hsorted
  constructor
  · exact List.pairwise_map.mpr (hslice.imp (fun h => h))
  · rw [List.length_map]
    have hlen := length_pySlice_le (selectMessages db cid) ((page - 1) * limit) limit
      (mul_nonneg (by omega) (by omega)) (by omega)
    omega

/-- Witness for C1 on a concrete two-message state with `page = 1`,
`limit = 1`. -/
theorem listByConversation_sorted_and_bounded_witness :
    (get_conversation_messages 0 1 1 dbTwoMsgs).data.Pairwise
      (fun a b => b.created_at ≤ a.created_at)
  ∧ ((get_conversation_messages 0 1 1 dbTwoMsgs).data.length : Int) ≤ 1 :=
  listByConversation_sorted_and_bounded dbTwoMsgs 0 1 1 (by decide) (by decide)

/-- C2: two sequential `create_or_get_conversation` calls for the same pair,
the second in the same or in reversed argument order, return the same
conversation id, from any starting state. -/
theorem findOrCreate_stable (db : DB) (A B : Int) (t₁ t₂ : Nat) :
    ((create_or_get_conversation A B t₂ (create_or_get_conversation A B t₁ db).2).1).convId
      = ((create_or_get_conversation A B t₁ db).1).convId
  ∧ ((create_or_get_conversation B A t₂ (create_or_get_conversation A B t₁ db).2).1).convId
      = ((create_or_get_conversation A B t₁ db).1).convId := by
  cases hfb : firstBoth db A B with
  | some conv =>
    rw [create_or_get_of_firstBoth_some A B t₁ db conv hfb]
    constructor
    · rw [create_or_get_of_firstBoth_some A B t₂ db conv hfb]
    · rw [create_or_get_of_firstBoth_some B A t₂ db conv
        ((firstBoth_symm db B A).trans hfb)]
  | none =>
    rw [create_or_get_of_firstBoth_none A B t₁ db hfb]
    dsimp only
    have hsymm : firstBoth db B A = none := (firstBoth_symm db B A).trans hfb
    constructor
    · rw [create_or_get_of_firstBoth_some A B t₂
        { db with
            conversations := db.conversations ++
              [{ conversation_id := db.nextId, list_of_users := [A, B],
                 created_at := t₁, last_message_at := some t₁,
                 last_message_content := none }],
            nextId := db.nextId + 1 }
        { conversation_id := db.nextId, list_of_users := [A, B],
          created_at := t₁, last_message_at := some t₁,
          last_message_content := none }
        ?hAB]
      · rfl
      case hAB =>
        unfold firstBoth at hfb ⊢
        dsimp only
        rw [List.find?_append, hfb]
        simp [List.find?]
    · rw [create_or_get_of_firstBoth_some B A t₂
        { db with
            conversations := db.conversations ++
              [{ conversation_id := db.nextId, list_of_users := [A, B],
                 created_at := t₁, last_message_at := some t₁,
                 last_message_content := none }],
            nextId := db.nextId + 1 }
        { conversation_id := db.nextId, list_of_users := [A, B],
          created_at := t₁, last_message_at := some t₁,
          last_message_content := none }
        ?hBA]
      · rfl
      case hBA =>
        unfold firstBoth at hsymm ⊢
        dsimp only
        rw [List.find?_append, hsymm]
        simp [List.find?]

/-- C9: `create_message` unconditionally overwrites the owning conversation's
`last_message_content` and `last_message_at` with the new message's content
and timestamp, whatever the previously stored values were (in particular even
when the stored `last_message_at` is newer than the new timestamp). -/
theorem append_overwrites_last_message (db : DB) (cid : Nat) (s r : Int)
    (content : String) (now : Nat) (c : ConversationRow)
    (hc : c ∈ ((create_message cid s r content now db).2).conversations)
    (hcid : c.conversation_id = cid) :
    c.last_message_at = some now ∧ c.last_message_content = some content := by
  have hc' : c ∈ db.conversations.map (fun c₀ =>
      if c₀.conversation_id == cid then
        { c₀ with last_message_content := some content, last_message_at := some now }
      else c₀) := hc
  rcases List.mem_map.mp hc' with ⟨c₀, _hc₀, rfl⟩
  by_cases h : c₀.conversation_id = cid
  · simp [h]
  · rw [if_neg (by simpa using h)] at hcid ⊢
    exact absurd hcid h

/-- C6 helper: the failing branch of `get_conversation`. -/
theorem get_conversation_of_filter_nil (db : DB) (cid : Nat)
    (h : db.conversations.filter (fun c => c.conversation_id == cid) = []) :
    get_conversation cid db = .error "Conversation not found" := by
  unfold get_conversation selectConversationById
  rw [h]

/-- C6 helper: the successful branch of `get_conversation`. -/
theorem get_conversation_of_filter_cons (db : DB) (cid : Nat)
    (conv : ConversationRow) (tl : List ConversationRow)
    (h : db.conversations.filter (fun c => c.conversation_id == cid) = conv :: tl) :
    get_conversation cid db = .ok (convOut conv) := by
  unfold get_conversation selectConversationById
  rw [h]

/-- C6: `get_conversation` raises `Conversation not found` exactly when no
stored conversation has the requested id, and otherwise returns the record
shaped from the first matching row. -/
theorem getById_notFound_iff (db : DB) (cid : Nat) :
    (get_conversation cid db = .error "Conversation not found"
       ↔ ∀ c ∈ db.conversations, c.conversation_id ≠ cid)
  ∧ (∀ c, db.conversations.find? (fun x => x.conversation_id == cid) = some c →
       get_conversation cid db = .ok (convOut c)) := by
  constructor
  · cases hres : db.conversations.filter (fun c => c.conversation_id == cid) with
    | nil =>
      rw [get_conversation_of_filter_nil db cid hres]
      constructor
      · intro _ c hc hcid
        have hmem : c ∈ db.conversations.filter (fun c => c.conversation_id == cid) :=
          List.mem_filter.mpr ⟨hc, by simp [hcid]⟩
        rw [hres] at hmem
        simp at hmem
      · intro _
        rfl
    | cons conv tl =>
      rw [get_conversation_of_filter_cons db cid conv tl hres]
      have hconv : conv ∈ db.conversations.filter (fun c => c.conversation_id == cid) := by
        rw [hres]; exact List.mem_cons_self conv tl
      rcases List.mem_filter.mp hconv with ⟨hmem, hid⟩
      constructor
      · intro h
        exact absurd h (by simp)
      · intro hall
        exact absurd (by simpa using hid) (hall conv hmem)
  · intro c hfind
    have hhead : (db.conversations.filter (fun x => x.conversation_id == cid)).head? = some c := by
      rw [List.filter_head?]
      exact hfind
    cases hres : db.conversations.filter (fun x => x.conversation_id == cid) with
    | nil =>
      rw [hres] at hhead
      simp at hhead
    | cons conv tl =>
      rw [hres] at hhead
      simp only [List.head?_cons, Option.some.injEq] at hhead
      subst hhead
      exact get_conversation_of_filter_cons db cid conv tl hres

/-- Witness for C6 (second conjunct has a hypothesis): on the concrete
two-message state, conversation 0 exists and is returned, and lookup of the
missing conversation 9 fails. -/
theorem getById_notFound_iff_witness :
    get_conversation 9 dbTwoMsgs = .error "Conversation not found" :=
  (getById_notFound_iff dbTwoMsgs 9).1.mpr (by decide)

/-- C7: both paginated listings report `total` as the full matching count for
every positive page and limit, and a window starting at or beyond that count
yields an empty `data`. -/
theorem totals_full_and_out_of_range_empty (db : DB) (cid : Nat) (u : Int)
    (page limit : Int) (hp : 1 ≤ page) (hl : 1 ≤ limit) :
    (get_conversation_messages cid page limit db).total
        = (db.messages.filter (fun m => m.conversation_id == cid)).length
  ∧ (get_user_conversations u page limit db).total
        = (db.conversations.filter (fun c => c.list_of_users.contains u)).length
  ∧ (((db.messages.filter (fun m => m.conversation_id == cid)).length : Int)
        ≤ (page - 1) * limit →
      (get_conversation_messages cid page limit db).data = [])
  ∧ (((db.conversations.filter (fun c => c.list_of_users.contains u)).length : Int)
        ≤ (page - 1) * limit →
      (get_user_conversations u page limit db).data = []) := by
  refine ⟨?_, ?_, ?_, ?_⟩
  · rw [get_conversation_messages_total, selectMessages_length]
  · rw [get_user_conversations_total, sortedUserConvs_length]
  · intro h
    rw [get_conversation_messages_data, pySlice_eq_nil_of_le]
    · rfl
    · have hlen := selectMessages_length db cid
      omega
  · intro h
    rw [get_user_conversations_data, pySlice_eq_nil_of_le]
    · rfl
    · have hlen := sortedUserConvs_length db u
      omega

/-- Witness for C7 on the concrete two-message state: `page = 5`, `limit = 3`
is out of range, so `data = []` while `total = 2`. -/
theorem totals_full_and_out_of_range_empty_witness :
    (get_conversation_messages 0 5 3 dbTwoMsgs).total
        = (dbTwoMsgs.messages.filter (fun m => m.conversation_id == 0)).length
  ∧ (get_conversation_messages 0 5 3 dbTwoMsgs).data = [] :=
  ⟨(totals_full_and_out_of_range_empty dbTwoMsgs 0 1 5 3 (by decide) (by decide)).1,
   (totals_full_and_out_of_range_empty dbTwoMsgs 0 1 5 3 (by decide)
      (by decide)).2.2.1 (by decide)⟩

/-- C8: `get_messages_before_timestamp` returns only messages strictly older
than the bound, and its `total` counts exactly the strictly-older messages, so
a message with `created_at = T` appears in neither `data` nor `total`. -/
theorem listBefore_strictly_before (db : DB) (cid T : Nat) (page limit : Int)
    (hp : 1 ≤ page) (hl : 1 ≤ limit) :
    (∀ m ∈ (get_messages_before_timestamp cid T page limit db).data, m.created_at < T)
  ∧ (get_messages_before_timestamp cid T page limit db).total
      = (db.messages.filter
          (fun m => m.conversation_id == cid && decide (m.sent_at < T))).length := by
  constructor
  · intro m hm
    rw [get_messages_before_timestamp_data] at hm
    rcases List.mem_map.mp hm with ⟨m₀, hm₀, rfl⟩
    have hmem : m₀ ∈ selectMessagesBefore db cid T :=
      (pySlice_sublist _ _ _).subset hm₀
    have hflt : m₀ ∈ db.messages.filter
        (fun m => m.conversation_id == cid && decide (m.sent_at < T)) := by
      unfold selectMessagesBefore at hmem
      exact (List.mem_insertionSort msgDesc).mp hmem
    have hpred := (List.mem_filter.mp hflt).2
    simp only [Bool.and_eq_true, decide_eq_true_eq] at hpred
    exact hpred.2
  · rw [get_messages_before_timestamp_total, selectMessagesBefore_length]

/-- Witness for C8 on the concrete two-message state: with bound `T = 20` the
message sent at 20 is excluded, `total = 1`. -/
theorem listBefore_strictly_before_witness :
    (∀ m ∈ (get_messages_before_timestamp 0 20 1 20 dbTwoMsgs).data, m.created_at < 20)
  ∧ (get_messages_before_timestamp 0 20 1 20 dbTwoMsgs).total
      = (dbTwoMsgs.messages.filter
          (fun m => m.conversation_id == 0 && decide (m.sent_at < 20))).length :=
  listBefore_strictly_before dbTwoMsgs 0 20 1 20 (by decide) (by decide)

/-- C10: `page = 0` with a positive limit raises no error in any of the three
paginated operations: the Python slice `[-limit : 0]` is empty, so `data = []`
while `total` is the full matching count and the envelope echoes `page = 0`
and the given `limit`. -/
theorem page_zero_returns_empty (db : DB) (cid T : Nat) (u : Int) (limit : Int)
    (hl : 1 ≤ limit) :
    ((get_conversation_messages cid 0 limit db).data = []
      ∧ (get_conversation_messages cid 0 limit db).total
          = (db.messages.filter (fun m => m.conversation_id == cid)).length
      ∧ (get_conversation_messages cid 0 limit db).page = 0
      ∧ (get_conversation_messages cid 0 limit db).limit = limit)
  ∧ ((get_messages_before_timestamp cid T 0 limit db).data = []
      ∧ (get_messages_before_timestamp cid T 0 limit db).total
          = (db.messages.filter
              (fun m => m.conversation_id == cid && decide (m.sent_at < T))).length
      ∧ (get_messages_before_timestamp cid T 0 limit db).page = 0
      ∧ (get_messages_before_timestamp cid T 0 limit db).limit = limit)
  ∧ ((get_user_conversations u 0 limit db).data = []
      ∧ (get_user_conversations u 0 limit db).total
          = (db.conversations.filter (fun c => c.list_of_users.contains u)).length
      ∧ (get_user_conversations u 0 limit db).page = 0
      ∧ (get_user_conversations u 0 limit db).limit = limit) := by
  have h0 : ((0 : Int) - 1) * limit + limit = 0 := by ring
  refine ⟨⟨?_, ?_, rfl, rfl⟩, ⟨?_, ?_, rfl, rfl⟩, ⟨?_, ?_, rfl, rfl⟩⟩
  · rw [get_conversation_messages_data, h0, pySlice_to_zero]
    rfl
  · rw [get_conversation_messages_total, selectMessages_length]
  · rw [get_messages_before_timestamp_data, h0, pySlice_to_zero]
    rfl
  · rw [get_messages_before_timestamp_total, selectMessagesBefore_length]
  · rw [get_user_conversations_data, h0, pySlice_to_zero]
    rfl
  · rw [get_user_conversations_total, sortedUserConvs_length]

/-- Witness for C10 at `limit = 5` on the concrete two-message state. -/
theorem page_zero_returns_empty_witness :
    (get_conversation_messages 0 0 5 dbTwoMsgs).data = []
  ∧ (get_conversation_messages 0 0 5 dbTwoMsgs).total
      = (dbTwoMsgs.messages.filter (fun m => m.conversation_id == 0)).length :=
  ⟨(page_zero_returns_empty dbTwoMsgs 0 0 1 5 (by decide)).1.1,
   (page_zero_returns_empty dbTwoMsgs 0 0 1 5 (by decide)).1.2.1⟩

/-- Counterexample to C5 as stated: `get_conversation_messages` called with
`page = 0` does not fail with an `InvalidArgument` error — no validation code
exists — it returns a normal envelope (with the full `total` and an empty
`data`, by Python slice semantics). -/
theorem invalid_page_not_rejected_counterexample :
    get_conversation_messages 0 0 5 dbTwoMsgs
      = { total := 2, page := 0, limit := 5, data := [] } := by decide

/-- C5 amended: non-positive `page`/`limit` are not rejected: all three
paginated operations return normally, still reporting `total` as the full
matching count (their `data` is whatever the Python slice yields). -/
theorem nonpositive_page_limit_not_rejected (db : DB) (cid T : Nat) (u : Int)
    (page limit : Int) (h : page ≤ 0 ∨ limit ≤ 0) :
    (get_conversation_messages cid page limit db).total
        = (db.messages.filter (fun m => m.conversation_id == cid)).length
  ∧ (get_messages_before_timestamp cid T page limit db).total
        = (db.messages.filter
            (fun m => m.conversation_id == cid && decide (m.sent_at < T))).length
  ∧ (get_user_conversations u page limit db).total
        = (db.conversations.filter (fun c => c.list_of_users.contains u)).length := by
  refine ⟨?_, ?_, ?_⟩
  · rw [get_conversation_messages_total, selectMessages_length]
  · rw [get_messages_before_timestamp_total, selectMessagesBefore_length]
  · rw [get_user_conversations_total, sortedUserConvs_length]

/-- Witness for C5's amended statement at `page = 0`, `limit = -1`. -/
theorem nonpositive_page_limit_not_rejected_witness :
    (get_conversation_messages 0 0 (-1) dbTwoMsgs).total
        = (dbTwoMsgs.messages.filter (fun m => m.conversation_id == 0)).length :=
  (nonpositive_page_limit_not_rejected dbTwoMsgs 0 0 1 0 (-1) (Or.inl (by decide))).1

/-- Witness for C9: a conversation whose stored `last_message_at` is 100 gets
overwritten by an append at the older time 5. -/
theorem append_overwrites_last_message_witness :
    ({ conversation_id := 3, list_of_users := [1, 2], created_at := 0,
       last_message_at := some 5, last_message_content := some "x" : ConversationRow }).last_message_at
      = some 5 ∧
    ({ conversation_id := 3, list_of_users := [1, 2], created_at := 0,
       last_message_at := some 5, last_message_content := some "x" : ConversationRow }).last_message_content
      = some "x" :=
  append_overwrites_last_message
    ⟨[{ conversation_id := 3, list_of_users := [1, 2], created_at := 0,
        last_message_at := some 100, last_message_content := some "newer" }], [], 0⟩
    3 1 2 "x" 5
    { conversation_id := 3, list_of_users := [1, 2], created_at := 0,
      last_message_at := some 5, last_message_content := some "x" }
    (by decide) (by decide)

theorem contains_true_iff_mem (l : List Int) (a : Int) : l.contains a = true ↔ a ∈ l :=
  List.elem_iff

theorem sorted_pair_le (users : List Int) (u1 u2 : Int) (rest : List Int)
    (h : List.insertionSort userAsc users = u1 :: u2 :: rest) : u1 ≤ u2 := by
  have hs := List.sorted_insertionSort userAsc users
  rw [h] at hs
  exact (List.sorted_cons.mp hs).1 u2 (List.mem_cons_self _ _)

theorem pairOfUsers_le (users : List Int) (a b : Int)
    (h1 : (pairOfUsers users).1 = some a) (h2 : (pairOfUsers users).2 = some b) :
    a ≤ b := by
  unfold pairOfUsers at h1 h2
  cases hs : List.insertionSort userAsc users with
  | nil =>
    rw [hs] at h1
    simp at h1
  | cons u1 tl =>
    cases tl with
    | nil =>
      rw [hs] at h1 h2
      simp at h1 h2
      subst h1
      subst h2
      exact le_refl _
    | cons u2 rest =>
      rw [hs] at h1 h2
      simp at h1 h2
      subst h1
      subst h2
      exact sorted_pair_le users u1 u2 rest hs

theorem pairOfUsers_perm (l l' : List Int) (h : l.Perm l') :
    pairOfUsers l = pairOfUsers l' := by
  unfold pairOfUsers
  have heq : List.insertionSort userAsc l = List.insertionSort userAsc l' :=
    List.eq_of_perm_of_sorted
      ((List.perm_insertionSort _ _).trans (h.trans (List.perm_insertionSort _ _).symm))
      (List.sorted_insertionSort _ _) (List.sorted_insertionSort _ _)
  rw [heq]

theorem pair_exact (l : List Int) (A B : Int) (hlen : l.length = 2)
    (hA : A ∈ l) (hB : B ∈ l) (hne : A ≠ B) : ∀ u ∈ l, u = A ∨ u = B := by
  rcases l with _ | ⟨x, _ | ⟨y, _ | ⟨z, t⟩⟩⟩
  · simp at hlen
  · simp at hlen
  · intro u hu
    simp only [List.mem_cons, List.not_mem_nil, or_false] at hA hB hu
    rcases hA with rfl | rfl <;> rcases hB with rfl | rfl <;> rcases hu with rfl | rfl <;> tauto
  · simp [List.length_cons] at hlen

/-- Counterexample to C3 as stated: in the degenerate case `userA = userB`,
`create_or_get_conversation 7 7` run after the system itself created a
conversation between users 7 and 3 returns that `{7, 3}` conversation — its
participant set contains 3, which is not among the requested `{7, 7}`. -/
theorem findOrCreate_degenerate_counterexample :
    (3 : Int) ∈ ((create_or_get_conversation 7 7 1
        (create_or_get_conversation 7 3 0 emptyDB).2).1).users
  ∧ ¬ ((3 : Int) = 7 ∨ (3 : Int) = 7) := by decide

/-- C3 amended: for two distinct user identifiers, and any state whose stored
conversations all have exactly two participants (the invariant the system's
own inserts maintain), `create_or_get_conversation` returns a conversation
whose participant set is exactly the requested pair; in the degenerate case
`userA = userB` it may instead return any existing conversation containing
that user. -/
theorem findOrCreate_exact_participants (db : DB) (A B : Int) (now : Nat)
    (hwf : WFConversations db) (hne : A ≠ B) :
    A ∈ ((create_or_get_conversation A B now db).1).users
  ∧ B ∈ ((create_or_get_conversation A B now db).1).users
  ∧ ∀ u ∈ ((create_or_get_conversation A B now db).1).users, u = A ∨ u = B := by
  cases hfb : firstBoth db A B with
  | some conv =>
    rw [create_or_get_of_firstBoth_some A B now db conv hfb]
    unfold firstBoth at hfb
    have hpred := List.find?_some hfb
    have hmem := List.mem_of_find?_eq_some hfb
    simp only [Bool.and_eq_true] at hpred
    have hA : A ∈ conv.list_of_users := (contains_true_iff_mem _ _).mp hpred.1
    have hB : B ∈ conv.list_of_users := (contains_true_iff_mem _ _).mp hpred.2
    exact ⟨hA, hB, pair_exact conv.list_of_users A B (hwf conv hmem) hA hB hne⟩
  | none =>
    rw [create_or_get_of_firstBoth_none A B now db hfb]
    refine ⟨by simp [ConvResult.users], by simp [ConvResult.users], ?_⟩
    intro u hu
    simp [ConvResult.users] at hu
    tauto

/-- Witness for C3's amended statement: on the empty state,
`create_or_get_conversation 1 2` yields participants exactly `{1, 2}`. -/
theorem findOrCreate_exact_participants_witness :
    (1 : Int) ∈ ((create_or_get_conversation 1 2 0 emptyDB).1).users
  ∧ (2 : Int) ∈ ((create_or_get_conversation 1 2 0 emptyDB).1).users :=
  ⟨(findOrCreate_exact_participants emptyDB 1 2 0
      (by intro c hc; simp [emptyDB] at hc) (by decide)).1,
   (findOrCreate_exact_participants emptyDB 1 2 0
      (by intro c hc; simp [emptyDB] at hc) (by decide)).2.1⟩

/-- Counterexample to C4 as stated: after `create_or_get_conversation 9 5`
created the conversation, the found branch of `create_or_get_conversation 5 9`
returns the raw stored row: its participants read `[9, 5]`, in
creation-supplied order, not normalized to `(5, 9)`. -/
theorem participants_unnormalized_counterexample :
    ((create_or_get_conversation 5 9 1
        (create_or_get_conversation 9 5 0 emptyDB).2).1).users = [9, 5]
  ∧ ([9, 5] : List Int) ≠ [5, 9] := by decide

/-- C4 amended: the read operations `get_conversation` and
`get_user_conversations` report the participant pair normalized as
`(min, max)` and independently of the order stored at creation, and the
create branch of `create_or_get_conversation` reports `(min, max)` as well;
the found branch of `create_or_get_conversation`, however, returns the raw
stored row with the participants in creation-supplied order. -/
theorem reads_report_normalized_participants (db : DB) (cid : Nat) (u : Int)
    (page limit : Int) (A B : Int) (now : Nat) :
    (∀ out, get_conversation cid db = .ok out →
       ∀ a b, out.user1_id = some a → out.user2_id = some b → a ≤ b)
  ∧ (∀ out ∈ (get_user_conversations u page limit db).data,
       ∀ a b, out.user1_id = some a → out.user2_id = some b → a ≤ b)
  ∧ (∀ c c' : ConversationRow, c.list_of_users.Perm c'.list_of_users →
       c.conversation_id = c'.conversation_id →
       c.last_message_at = c'.last_message_at →
       c.last_message_content = c'.last_message_content →
       convOut c = convOut c')
  ∧ (∀ r, (create_or_get_conversation A B now db).1 = .created r →
       r.user1_id = min A B ∧ r.user2_id = max A B) := by
  refine ⟨?_, ?_, ?_, ?_⟩
  · intro out hok a b h1 h2
    cases hres : db.conversations.filter (fun c => c.conversation_id == cid) with
    | nil =>
      rw [get_conversation_of_filter_nil db cid hres] at hok
      exact absurd hok (by simp)
    | cons conv tl =>
      rw [get_conversation_of_filter_cons db cid conv tl hres] at hok
      have : out = convOut conv := by
        simpa using hok.symm
      subst this
      exact pairOfUsers_le conv.list_of_users a b h1 h2
  · intro out hout a b h1 h2
    rw [get_user_conversations_data] at hout
    rcases List.mem_map.mp hout with ⟨c, _, rfl⟩
    exact pairOfUsers_le c.list_of_users a b h1 h2
  · intro c c' hperm hid hat hcontent
    unfold convOut
    rw [pairOfUsers_perm c.list_of_users c'.list_of_users hperm, hid, hat, hcontent]
  · intro r hr
    cases hfb : firstBoth db A B with
    | some conv =>
      rw [create_or_get_of_firstBoth_some A B now db conv hfb] at hr
      exact absurd hr (by simp)
    | none =>
      rw [create_or_get_of_firstBoth_none A B now db hfb] at hr
      simp only [ConvResult.created.injEq] at hr
      rw [← hr]
      exact ⟨rfl, rfl⟩

/-- Witness for C4's amended statement: the create branch for the pair
`(9, 5)` reports `(user1_id, user2_id) = (5, 9)`. -/
theorem reads_report_normalized_participants_witness :
    ({ id := 0, user1_id := min (9 : Int) 5, user2_id := max (9 : Int) 5,
       created_at := 0, last_message_at := some 0, last_message_content := none,
       list_of_users := [9, 5] : CreatedConv }).user1_id = min (9 : Int) 5
  ∧ ({ id := 0, user1_id := min (9 : Int) 5, user2_id := max (9 : Int) 5,
       created_at := 0, last_message_at := some 0, last_message_content := none,
       list_of_users := [9, 5] : CreatedConv }).user2_id = max (9 : Int) 5 :=
  (reads_report_normalized_participants emptyDB 0 1 1 20 9 5 0).2.2.2
    { id := 0, user1_id := min (9 : Int) 5, user2_id := max (9 : Int) 5,
      created_at := 0, last_message_at := some 0, last_message_content := none,
      list_of_users := [9, 5] }
    (by decide)

end Messenger
